import Mathlib

/-!
Verification of the native HTTP/WebSocket bridge (HybridHttpServer.cpp).

Strings on the wire are modelled as lists of characters (`Chars`), raw
byte bodies as lists of naturals.  Every definition below is translated
from the corresponding function in src/cpp/HybridHttpServer.cpp.
-/

namespace RNHttp

abbrev Chars := List Char

/-- C `isspace` in the default locale: space, tab, newline, vertical tab,
form feed, carriage return.  Used by the hand-rolled header scanner. -/
def isSpaceC (c : Char) : Bool :=
  c == ' ' || c == '\t' || c == '\n' || c == '\x0b' || c == '\x0c' || c == '\r'

/-- The `escapeJson` lambda inside `serializeHeaders` (lines 46-55):
prefixes a backslash before every quote or backslash character. -/
def escapeJson : Chars → Chars
  | [] => []
  | c :: rest =>
    if c = '"' ∨ c = '\\' then '\\' :: c :: escapeJson rest
    else c :: escapeJson rest

/-- One `"key":"value"` fragment as appended by `serializeHeaders`. -/
def pairChars (k v : Chars) : Chars :=
  '"' :: escapeJson k ++ '"' :: ':' :: '"' :: escapeJson v ++ ['"']

/-- The loop body of `serializeHeaders`: pair fragments joined by commas
(the `first` flag inserts a comma before every pair but the first). -/
def serializePairs : List (Chars × Chars) → Chars
  | [] => []
  | [(k, v)] => pairChars k v
  | (k, v) :: rest => pairChars k v ++ ',' :: serializePairs rest

/-- `serializeHeaders` (lines 31-61): `"{}"` for an absent or empty map,
otherwise the brace-wrapped comma-separated pair fragments. -/
def serializeHeaders (headers : Option (List (Chars × Chars))) : Chars :=
  match headers with
  | none => ['{', '}']
  | some [] => ['{', '}']
  | some l => '{' :: serializePairs l ++ ['}']

/-- The quoted-string scan inside the header parser (lines 153-159 and
177-183): advance to the next unescaped quote, stepping over a backslash
together with its following character; `none` models falling off the end
of the string (the `pos >= length` break). -/
def scanQuoted : Chars → Option (Chars × Chars)
  | [] => none
  | c :: rest =>
    if c = '"' then some ([], rest)
    else if c = '\\' then
      match rest with
      | [] => none
      | c2 :: rest2 => (scanQuoted rest2).map (fun p => (c :: c2 :: p.1, p.2))
    else (scanQuoted rest).map (fun p => (c :: p.1, p.2))

/-- The `unescape` lambda of the header parser (lines 191-213): rewrites
the sequences backslash-quote, backslash-backslash, backslash-slash, and
backslash-n / backslash-t; any other backslash is kept verbatim and
scanning resumes at the following character. -/
def unescape : Chars → Chars
  | [] => []
  | c :: rest =>
    if c = '\\' then
      match rest with
      | [] => [c]
      | c2 :: rest2 =>
        if c2 = '"' ∨ c2 = '\\' ∨ c2 = '/' then c2 :: unescape rest2
        else if c2 = 'n' then '\n' :: unescape rest2
        else if c2 = 't' then '\t' :: unescape rest2
        else c :: unescape (c2 :: rest2)
    else c :: unescape rest

/-- The header-parsing `while` loop of `c_request_callback`
(lines 139-221), phrased over the suffix of the JSON string that starts
at the current position; the suffix always ends with the original
string's final character.  `rest.length ≤ 1` is `pos >= length - 1`,
the fuel argument only bounds the iteration count (each iteration
consumes at least four characters, so any fuel at least the string
length is enough). -/
def parsePairs : Nat → Chars → List (Chars × Chars)
  | 0, _ => []
  | fuel + 1, rest =>
    if rest.length ≤ 1 then []
    else
      let r1 := List.dropWhile isSpaceC rest
      if r1.length ≤ 1 then []
      else
        match r1 with
        | [] => []
        | c :: r2 =>
          if c = '}' then []
          else if c = '"' then
            match scanQuoted r2 with
            | none => []
            | some (keyRaw, r3) =>
              match List.dropWhile (fun c => isSpaceC c || c == ':') r3 with
              | [] => []
              | c2 :: r5 =>
                if c2 = '"' then
                  match scanQuoted r5 with
                  | none => []
                  | some (valRaw, r6) =>
                    (unescape keyRaw, unescape valRaw) ::
                      parsePairs fuel
                        (List.dropWhile (fun c => isSpaceC c || c == ',') r6)
                else []
          else []

/-- Header decoding as performed by `c_request_callback` (lines 130-223):
an empty string leaves the map empty (the `strlen` guard), a string that
does not both start with an opening brace and end with a closing brace
is skipped entirely (the guard on lines 135-136), otherwise the scan of
`parsePairs` runs from position 1.  The result is the pair list in parse
order (the C++ code inserts each pair into the map as it is parsed). -/
def decodeHeaders (s : Chars) : List (Chars × Chars) :=
  if s.length = 0 then []
  else if 2 ≤ s.length ∧ s.head? = some '{' ∧ s.getLast? = some '}' then
    parsePairs s.length s.tail
  else []

/-- The `HttpResponse` value constructed by the handler (statusCode,
optional headers, optional textual body, optional binary payload), as
consumed by the response-sending paths. -/
structure HttpResponse where
  statusCode : Int
  headers : Option (List (Chars × Chars)) := none
  body : Option String := none
  binaryBody : Option (List Nat) := none
deriving DecidableEq

/-- The engine-native request record handed to `c_request_callback`
(`::HttpRequest`): every field may be a null pointer; `body` models the
pointer together with `body_len` bytes of raw data (`none` is a null
body pointer, and a zero `body_len` is an empty list). -/
structure CHttpRequest where
  request_id : Option String := none
  method : Option String := none
  path : Option String := none
  headers_json : Option Chars := none
  body : Option (List Nat) := none
deriving DecidableEq

/-- The application-facing request built by `c_request_callback`
(lines 112-249).  `requestId`, `method` and `path` stay at their
defaults when the native pointer is null (empty string for the
always-present `requestId`). -/
structure HttpRequest where
  requestId : String := ""
  method : Option String := none
  path : Option String := none
  headers : List (Chars × Chars) := []
  body : Option (List Nat) := none
  binaryBody : Option (List Nat) := none
deriving DecidableEq

/-- The upload-marker header key `"x-upload-filename"` (line 228). -/
def uploadMarkerKey : Chars :=
  ['x', '-', 'u', 'p', 'l', 'o', 'a', 'd', '-', 'f', 'i', 'l', 'e', 'n', 'a', 'm', 'e']

/-- The decoded header map of a native request: absent or empty
`headers_json` leaves the map empty (line 130), otherwise the JSON scan
runs. -/
def requestHeaders (c : CHttpRequest) : List (Chars × Chars) :=
  match c.headers_json with
  | none => []
  | some j => decodeHeaders j

/-- `request.headers.find("x-upload-filename") != end` (line 228). -/
def hasUploadMarker (c : CHttpRequest) : Bool :=
  (requestHeaders c).any (fun p => p.1 = uploadMarkerKey)

/-- The request translation performed by `c_request_callback`
(lines 112-249): copy id/method/path when non-null, decode headers,
then — only when the native body pointer is non-null and `body_len` is
positive — materialize the bytes as `binaryBody` when the upload marker
is present and as the textual `body` otherwise. -/
def translateRequest (c : CHttpRequest) : HttpRequest :=
  let bodies : Option (List Nat) × Option (List Nat) :=
    match c.body with
    | some bs =>
      if 0 < bs.length then
        if hasUploadMarker c then (none, some bs) else (some bs, none)
      else (none, none)
    | none => (none, none)
  { requestId := c.request_id.getD ""
    method := c.method
    path := c.path
    headers := requestHeaders c
    body := bodies.1
    binaryBody := bodies.2 }

/-- One `send_response` call into the engine: request id, status code,
serialized header JSON, textual body and its length. -/
structure SendCall where
  requestId : String
  statusCode : Int
  headersJson : Chars
  body : String
  bodyLen : Nat
deriving DecidableEq

/-- `extractAndSendResponse` (lines 66-94): reads only `statusCode`,
`headers` and the textual `body` of the response (the function is
documented as forbidden from touching `binaryBody`) and issues the
`send_response` call. -/
def extractAndSendResponse (requestId : String) (r : HttpResponse) : SendCall :=
  let headersJson := serializeHeaders r.headers
  let bodyStr := r.body.getD ""
  { requestId := requestId
    statusCode := r.statusCode
    headersJson := headersJson
    body := bodyStr
    bodyLen := bodyStr.length }

/-- `HybridHttpServer::sendResponse` (lines 343-373): copies status,
serialized headers and the textual body on the calling thread, then the
async block issues `send_response` with exactly those; `binaryBody` is
never read. -/
def sendResponseCall (requestId : String) (r : HttpResponse) : SendCall :=
  let bodyStr := r.body.getD ""
  let headersJson := serializeHeaders r.headers
  { requestId := requestId
    statusCode := r.statusCode
    headersJson := headersJson
    body := bodyStr
    bodyLen := bodyStr.length }

/-- The fallback response synthesized by the rejection listeners
(lines 280-283 and 291-294). -/
def internalServerError : HttpResponse :=
  { statusCode := 500, body := some "Internal Server Error" }

/-- Outcome of the inner `Promise<HttpResponse>` a handler may return. -/
inductive InnerOutcome where
  | resolves (resp : HttpResponse)
  | rejects
deriving DecidableEq

/-- The variant the handler's outer promise resolves to: an immediate
response, or a nested deferred response. -/
inductive HandlerValue where
  | immediate (resp : HttpResponse)
  | deferred (o : InnerOutcome)
deriving DecidableEq

/-- Settlement of the handler's outer promise. -/
inductive OuterOutcome where
  | resolves (v : HandlerValue)
  | rejects
deriving DecidableEq

/-- Observable behaviour of one handler invocation: the call itself may
throw synchronously, or return a promise that settles as described. -/
inductive HandlerBehavior where
  | throws
  | returns (o : OuterOutcome)
deriving DecidableEq

/-- The engine-visible outcome of one `c_request_callback` dispatch:
whether the installed handler was invoked, the `send_response` calls
that are (eventually) issued for this request, and whether
`free_http_request` released the engine-owned record. -/
structure DispatchResult where
  handlerInvoked : Bool
  sent : List SendCall
  freed : Bool
deriving DecidableEq

/-- `c_request_callback` (lines 97-303).  A null request returns at once
(no release).  An absent context or empty handler slot releases the
record and returns (lines 103-110).  A synchronous throw from the
handler is caught and logged (lines 297-299) — nothing is sent, the
record is still released (line 302).  Otherwise the listeners of
lines 261-295 send exactly one response: the resolved one, or the
500 fallback when the outer promise or the nested promise rejects. -/
def c_request_callback (creq : Option CHttpRequest)
    (slot : Option HandlerBehavior) : DispatchResult :=
  match creq with
  | none => { handlerInvoked := false, sent := [], freed := false }
  | some c =>
    match slot with
    | none => { handlerInvoked := false, sent := [], freed := true }
    | some .throws => { handlerInvoked := true, sent := [], freed := true }
    | some (.returns o) =>
      let rid := (translateRequest c).requestId
      let sent :=
        match o with
        | .rejects => [extractAndSendResponse rid internalServerError]
        | .resolves (.immediate resp) => [extractAndSendResponse rid resp]
        | .resolves (.deferred (.resolves resp)) => [extractAndSendResponse rid resp]
        | .resolves (.deferred .rejects) => [extractAndSendResponse rid internalServerError]
      { handlerInvoked := true, sent := sent, freed := true }

/-- `ServerStats` counters (all `double` fields of the generated
struct, modelled as naturals). -/
structure ServerStats where
  totalRequests : Nat
  activeConnections : Nat
  bytesSent : Nat
  bytesReceived : Nat
  uptime : Nat
  errorCount : Nat
deriving DecidableEq

/-- `HybridHttpServer::getStats` (lines 387-403): calls
`get_server_stats()` but — per the TODO on line 391 — never parses the
returned JSON and always returns the default (all-zero) counters. -/
def getStats (engineStatsJson : String) : ServerStats :=
  let _ := engineStatsJson
  { totalRequests := 0, activeConnections := 0, bytesSent := 0
    bytesReceived := 0, uptime := 0, errorCount := 0 }

/-- The 64 KiB chunk size of `readRequestBodyChunk` (line 501). -/
def BUFFER_CAP : Nat := 64 * 1024

/-- The error kind thrown on a negative engine read (line 508). -/
inductive ChunkError where
  | readFailed
deriving DecidableEq

/-- `HybridHttpServer::readRequestBodyChunk` (lines 497-515): the engine
writes into a 64 KiB buffer and reports `bytesRead`; a negative report
throws, zero returns the empty string, a positive report returns the
first `bytesRead` bytes of the buffer. -/
def readRequestBodyChunk (bytesRead : Int) (buffer : List Nat) :
    Except ChunkError (List Nat) :=
  if bytesRead < 0 then .error .readFailed
  else if bytesRead = 0 then .ok []
  else .ok (buffer.take bytesRead.toNat)

/-- `HybridHttpServer::wsSendBinary` (lines 683-703): the bytes are
copied on the calling thread (empty when the buffer is null, has a null
data pointer, or has size zero); the async block returns `false`
without calling the engine when the copy is empty, and otherwise passes
the copied bytes to `ws_send_binary` and returns the engine's flag.
The first component is the byte payload handed to `ws_send_binary`
(`none` when the engine is not called), the second the returned flag. -/
def wsSendBinary (data : Option (List Nat)) (engineFlag : Bool) :
    Option (List Nat) × Bool :=
  let binaryData : List Nat :=
    match data with
    | some bs => if 0 < bs.length then bs else []
    | none => []
  if binaryData = [] then (none, false)
  else (some binaryData, engineFlag)

/-- A string free of control characters: every character has code point
at least 32 and is not DEL. -/
def controlFreeStr (s : Chars) : Prop := ∀ c ∈ s, 32 ≤ c.toNat ∧ c.toNat ≠ 127

instance decControlFreeStr (s : Chars) : Decidable (controlFreeStr s) :=
  inferInstanceAs (Decidable (∀ c ∈ s, 32 ≤ c.toNat ∧ c.toNat ≠ 127))

/-- The malformed header string of the spec's example: an opening brace,
a quoted key `a`, a colon, a quoted value `b`, and no closing brace. -/
def malformedHeaderChars : Chars := ['{', '"', 'a', '"', ':', '"', 'b', '"']

/-- An engine request whose header JSON carries only the upload-marker
key (value `f`) and whose body pointer is null. -/
def uploadOnlyReq : CHttpRequest :=
  { headers_json := some ['{', '"', 'x', '-', 'u', 'p', 'l', 'o', 'a', 'd', '-',
      'f', 'i', 'l', 'e', 'n', 'a', 'm', 'e', '"', ':', '"', 'f', '"', '}'] }

/-- An engine request with no headers and a two-byte body. -/
def textOnlyReq : CHttpRequest := { body := some [104, 105] }

/- ------------------------------------------------------------------ -/
/- Helper lemmas about the header codec.                               -/
/- ------------------------------------------------------------------ -/

theorem scanQuoted_quote (r : Chars) : scanQuoted ('"' :: r) = some ([], r) := by
  rw [scanQuoted.eq_def]; rfl

theorem scanQuoted_bs (c2 : Char) (r : Chars) :
    scanQuoted ('\\' :: c2 :: r) = (scanQuoted r).map (fun p => ('\\' :: c2 :: p.1, p.2)) := by
  rw [scanQuoted.eq_def]; rfl

theorem scanQuoted_other (c : Char) (r : Chars) (h1 : c ≠ '"') (h2 : c ≠ '\\') :
    scanQuoted (c :: r) = (scanQuoted r).map (fun p => (c :: p.1, p.2)) := by
  rw [scanQuoted.eq_def]
  simp [h1, h2]

theorem unescape_esc (c2 : Char) (r : Chars) (h : c2 = '"' ∨ c2 = '\\' ∨ c2 = '/') :
    unescape ('\\' :: c2 :: r) = c2 :: unescape r := by
  rw [unescape.eq_def]
  simp [h]

theorem unescape_other (c : Char) (r : Chars) (h : c ≠ '\\') :
    unescape (c :: r) = c :: unescape r := by
  rw [unescape.eq_def]
  simp [h]

theorem scanQuoted_escapeJson (s r : Chars) :
    scanQuoted (escapeJson s ++ '"' :: r) = some (escapeJson s, r) := by
  induction s with
  | nil => simp [escapeJson, scanQuoted_quote]
  | cons c t ih =>
    by_cases hc : c = '"' ∨ c = '\\'
    · simp only [escapeJson, if_pos hc, List.cons_append]
      rw [scanQuoted_bs, ih]
      rfl
    · push_neg at hc
      simp only [escapeJson, if_neg (by tauto : ¬(c = '"' ∨ c = '\\')), List.cons_append]
      rw [scanQuoted_other c _ hc.1 hc.2, ih]
      rfl

theorem unescape_escapeJson (s : Chars) : unescape (escapeJson s) = s := by
  induction s with
  | nil => rfl
  | cons c t ih =>
    by_cases hc : c = '"' ∨ c = '\\'
    · simp only [escapeJson, if_pos hc]
      rw [unescape_esc c _ (by tauto), ih]
    · push_neg at hc
      simp only [escapeJson, if_neg (by tauto : ¬(c = '"' ∨ c = '\\'))]
      rw [unescape_other c _ hc.2, ih]

theorem parsePairs_rbrace (f : Nat) : parsePairs f ['}'] = [] := by
  cases f <;> rfl

theorem parsePairs_pair_step (f : Nat) (k v : Chars) (rest : Chars) :
    parsePairs (f + 1) (pairChars k v ++ rest) =
      (k, v) :: parsePairs f (List.dropWhile (fun c => isSpaceC c || c == ',') rest) := by
  have hpair : pairChars k v ++ rest =
      '"' :: (escapeJson k ++ '"' :: ':' :: '"' :: (escapeJson v ++ '"' :: rest)) := by
    simp [pairChars]
  rw [hpair, parsePairs.eq_def]
  have hlen : ¬ (('"' :: (escapeJson k ++ '"' :: ':' :: '"' :: (escapeJson v ++ '"' :: rest))).length ≤ 1) := by
    simp [List.length_append]
  have hdw1 : List.dropWhile isSpaceC
      ('"' :: (escapeJson k ++ '"' :: ':' :: '"' :: (escapeJson v ++ '"' :: rest))) =
      '"' :: (escapeJson k ++ '"' :: ':' :: '"' :: (escapeJson v ++ '"' :: rest)) := rfl
  have hdw2 : List.dropWhile (fun c => isSpaceC c || c == ':')
      (':' :: '"' :: (escapeJson v ++ '"' :: rest)) = '"' :: (escapeJson v ++ '"' :: rest) := rfl
  simp only [if_neg hlen, hdw1, scanQuoted_escapeJson, hdw2, unescape_escapeJson]
  simp

theorem serializePairs_cons₂ (k v : Chars) (q : Chars × Chars) (t : List (Chars × Chars)) :
    serializePairs ((k, v) :: q :: t) = pairChars k v ++ ',' :: serializePairs (q :: t) := rfl

theorem serializePairs_head (a b : Chars) (t : List (Chars × Chars)) :
    ∃ Y, serializePairs ((a, b) :: t) = '"' :: Y := by
  cases t with
  | nil => exact ⟨escapeJson a ++ '"' :: ':' :: '"' :: escapeJson b ++ ['"'], rfl⟩
  | cons q t' =>
    exact ⟨(escapeJson a ++ '"' :: ':' :: '"' :: escapeJson b ++ ['"']) ++
      ',' :: serializePairs (q :: t'), rfl⟩

theorem length_serializePairs (l : List (Chars × Chars)) :
    l.length ≤ (serializePairs l).length := by
  induction l with
  | nil => simp [serializePairs]
  | cons p t ih =>
    obtain ⟨k, v⟩ := p
    cases t with
    | nil => simp [serializePairs, pairChars]
    | cons q t' =>
      rw [serializePairs_cons₂]
      simp only [List.length_append, List.length_cons, pairChars]
      simp only [List.length_cons, List.length_append] at ih ⊢
      omega

theorem parsePairs_serializePairs (l : List (Chars × Chars)) :
    ∀ f, l.length ≤ f → parsePairs f (serializePairs l ++ ['}']) = l := by
  induction l with
  | nil =>
    intro f _
    show parsePairs f ['}'] = []
    exact parsePairs_rbrace f
  | cons p t ih =>
    obtain ⟨k, v⟩ := p
    intro f hf
    obtain ⟨f', rfl⟩ : ∃ f', f = f' + 1 := ⟨f - 1, by simp at hf; omega⟩
    cases t with
    | nil =>
      rw [show serializePairs [(k, v)] = pairChars k v from rfl]
      rw [parsePairs_pair_step]
      rw [show List.dropWhile (fun c => isSpaceC c || c == ',') ['}'] = ['}'] from rfl]
      rw [parsePairs_rbrace]
    | cons q t' =>
      rw [serializePairs_cons₂, List.append_assoc, List.cons_append,
        parsePairs_pair_step]
      obtain ⟨b1, b2⟩ := q
      obtain ⟨Y, hY⟩ := serializePairs_head b1 b2 t'
      have hdw : List.dropWhile (fun c => isSpaceC c || c == ',')
          (',' :: (serializePairs ((b1, b2) :: t') ++ ['}'])) =
          serializePairs ((b1, b2) :: t') ++ ['}'] := by
        rw [List.dropWhile_cons]
        simp only [show ((isSpaceC ',' || ',' == ',') = true) from rfl, if_true]
        rw [hY, List.cons_append, List.dropWhile_cons]
        simp [show isSpaceC '"' = false from rfl]
      rw [hdw, ih]
      simp only [List.length_cons] at hf ⊢
      omega

/-- Round trip of the header codec at the level of pair lists: decoding
the serialized form of any header list returns the list itself. -/
theorem decodeHeaders_serializeHeaders (l : List (Chars × Chars)) :
    decodeHeaders (serializeHeaders (some l)) = l := by
  cases l with
  | nil => rfl
  | cons p t =>
    obtain ⟨k, v⟩ := p
    have hser : serializeHeaders (some ((k, v) :: t)) =
        '{' :: (serializePairs ((k, v) :: t) ++ ['}']) := rfl
    rw [hser, decodeHeaders]
    have h0 : ¬ (('{' :: (serializePairs ((k, v) :: t) ++ ['}'])).length = 0) := by
      simp
    have hcond : 2 ≤ ('{' :: (serializePairs ((k, v) :: t) ++ ['}'])).length ∧
        ('{' :: (serializePairs ((k, v) :: t) ++ ['}'])).head? = some '{' ∧
        ('{' :: (serializePairs ((k, v) :: t) ++ ['}'])).getLast? = some '}' := by
      refine ⟨by simp, rfl, ?_⟩
      rw [show ('{' :: (serializePairs ((k, v) :: t) ++ ['}'])) =
        ('{' :: serializePairs ((k, v) :: t)) ++ ['}'] from rfl]
      exact List.getLast?_concat _
    rw [if_neg h0, if_pos hcond]
    have hgoal : (('{' :: (serializePairs ((k, v) :: t) ++ ['}'])).tail) =
        serializePairs ((k, v) :: t) ++ ['}'] := rfl
    rw [hgoal]
    apply parsePairs_serializePairs
    have := length_serializePairs ((k, v) :: t)
    simp only [List.length_cons, List.length_append] at this ⊢
    omega

/- ------------------------------------------------------------------ -/
/- Claim theorems.                                                     -/
/- ------------------------------------------------------------------ -/

/-- C1 counterexample: the malformed header string of the claim — an
object missing its closing brace — decodes to the EMPTY mapping, not to
the single-entry mapping a to b: the parser skips any input whose last
character is not a closing brace (lines 135-136). -/
theorem c1_counterexample :
    decodeHeaders malformedHeaderChars = [] ∧
    decodeHeaders malformedHeaderChars ≠ [(['a'], ['b'])] := by decide

/-- C1 (amended): decoding never raises, and every header-JSON input
that does not both start with an opening brace and end with a closing
brace (with length at least two) decodes to the empty mapping, all of
its pairs dropped; in particular the claim's input decodes to the empty
mapping, not to the mapping a to b.  Truncation at the first deviation
with earlier pairs kept applies only to brace-delimited inputs. -/
theorem c1_amended (s : Chars)
    (h : ¬ (2 ≤ s.length ∧ s.head? = some '{' ∧ s.getLast? = some '}')) :
    decodeHeaders s = [] := by
  rw [decodeHeaders]
  by_cases h0 : s.length = 0
  · rw [if_pos h0]
  · rw [if_neg h0, if_neg h]

/-- Witness for C1 (amended) at the claim's own malformed input. -/
theorem c1_amended_witness :
    (¬ (2 ≤ malformedHeaderChars.length ∧ malformedHeaderChars.head? = some '{' ∧
        malformedHeaderChars.getLast? = some '}')) ∧
    decodeHeaders malformedHeaderChars = [] :=
  ⟨by decide, c1_amended _ (by decide)⟩

/-- C2: `getStats` is a stub — for every JSON string the engine's
`get_server_stats()` reports, the returned counters are all zero, so the
result is NOT a snapshot of the engine's counters (code bug: the TODO on
line 391 acknowledges the parse is unimplemented). -/
theorem c2_getStats_stub (engineStatsJson : String) :
    getStats engineStatsJson =
      { totalRequests := 0, activeConnections := 0, bytesSent := 0,
        bytesReceived := 0, uptime := 0, errorCount := 0 } := rfl

/-- Witness for C2: even when the engine reports nonzero counters, the
returned snapshot is all zero. -/
theorem c2_getStats_stub_witness :
    getStats "totalRequests:5,errorCount:6" =
      { totalRequests := 0, activeConnections := 0, bytesSent := 0,
        bytesReceived := 0, uptime := 0, errorCount := 0 } :=
  c2_getStats_stub "totalRequests:5,errorCount:6"

/-- C3: for every header mapping whose keys and values are free of
control characters, decoding the string produced by encoding it returns
exactly the original mapping (in fact the proof needs neither
hypothesis; values containing quotes and backslashes round-trip, as the
witness shows). -/
theorem c3_roundtrip (h : List (Chars × Chars))
    (hkeys : (h.map Prod.fst).Nodup)
    (hfree : ∀ p ∈ h, controlFreeStr p.1 ∧ controlFreeStr p.2) :
    decodeHeaders (serializeHeaders (some h)) = h :=
  decodeHeaders_serializeHeaders h

/-- Witness for C3 at a mapping whose value contains both the quote and
the backslash character. -/
theorem c3_roundtrip_witness :
    (([(['k'], ['a', '"', 'b', '\\', 'c'])].map Prod.fst).Nodup) ∧
    (∀ p ∈ [(['k'], ['a', '"', 'b', '\\', 'c'])], controlFreeStr p.1 ∧ controlFreeStr p.2) ∧
    decodeHeaders (serializeHeaders (some [(['k'], ['a', '"', 'b', '\\', 'c'])])) =
      [(['k'], ['a', '"', 'b', '\\', 'c'])] :=
  ⟨by decide, by decide, c3_roundtrip _ (by decide) (by decide)⟩

/-- C4 counterexample: a request whose decoded headers contain the
upload-marker key but whose native body pointer is null yields a
translated request with `binaryBody` absent, refuting the claim that the
marker always forces `binaryBody` to be set (lines 232-249 only set
either field when the body is non-null and non-empty). -/
theorem c4_counterexample :
    hasUploadMarker uploadOnlyReq = true ∧
    (translateRequest uploadOnlyReq).binaryBody = none := by decide

/-- C4 (amended): `body` and `binaryBody` are never both present; when
the native body is present and non-empty, the upload marker selects
`binaryBody` (with `body` absent) and its absence selects `body` (with
`binaryBody` absent); when the native body is null or empty, both fields
are absent. -/
theorem c4_amended (c : CHttpRequest) :
    (¬ ((translateRequest c).body.isSome ∧ (translateRequest c).binaryBody.isSome)) ∧
    (∀ bs, c.body = some bs → 0 < bs.length →
      (hasUploadMarker c = true →
        (translateRequest c).binaryBody = some bs ∧ (translateRequest c).body = none) ∧
      (hasUploadMarker c = false →
        (translateRequest c).body = some bs ∧ (translateRequest c).binaryBody = none)) ∧
    ((c.body = none ∨ c.body = some []) →
      (translateRequest c).body = none ∧ (translateRequest c).binaryBody = none) := by
  cases hb : c.body with
  | none => simp [translateRequest, hb]
  | some bs =>
    by_cases hlen : 0 < bs.length
    · by_cases hm : hasUploadMarker c
      · simp [translateRequest, hb, hlen, hm]
        intro h
        subst h
        simp at hlen
      · simp [translateRequest, hb, hlen, hm]
        intro h
        subst h
        simp at hlen
    · have hbs : bs = [] := by
        cases bs with
        | nil => rfl
        | cons a t => simp at hlen
      subst hbs
      simp [translateRequest, hb]

/-- Witness for C4 (amended): a marker-free request with a non-empty
body gets a textual `body` and no `binaryBody`. -/
theorem c4_amended_witness :
    textOnlyReq.body = some [104, 105] ∧ 0 < ([104, 105] : List Nat).length ∧
    hasUploadMarker textOnlyReq = false ∧
    ((translateRequest textOnlyReq).body = some [104, 105] ∧
     (translateRequest textOnlyReq).binaryBody = none) :=
  ⟨rfl, by decide, by decide,
    ((c4_amended textOnlyReq).2.1 [104, 105] rfl (by decide)).2 (by decide)⟩

/-- C5: whenever the handler's deferred result rejects — the outer
promise rejecting, or the nested promise rejecting — the dispatch sends
exactly one response for the original requestId: statusCode 500,
empty-object header JSON, body Internal Server Error. -/
theorem c5_rejection_sends_500 (c : CHttpRequest) (o : OuterOutcome)
    (h : o = .rejects ∨ o = .resolves (.deferred .rejects)) :
    (c_request_callback (some c) (some (.returns o))).sent =
      [{ requestId := (translateRequest c).requestId, statusCode := 500,
         headersJson := ['{', '}'], body := "Internal Server Error",
         bodyLen := 21 }] := by
  rcases h with h | h <;> subst h <;> rfl

/-- Witness for C5 at an all-default request whose handler's outer
promise rejects. -/
theorem c5_rejection_sends_500_witness :
    ((OuterOutcome.rejects = OuterOutcome.rejects ∨
      OuterOutcome.rejects = .resolves (.deferred .rejects)) ∧
     (c_request_callback (some {}) (some (.returns .rejects))).sent =
      [{ requestId := "", statusCode := 500, headersJson := ['{', '}'],
         body := "Internal Server Error", bodyLen := 21 }]) :=
  ⟨Or.inl rfl, c5_rejection_sends_500 {} .rejects (Or.inl rfl)⟩

/-- C6: a synchronous throw from the handler is swallowed: the callback
returns normally with no response sent, and the engine-owned request
record is still released via `free_http_request`. -/
theorem c6_sync_throw_swallowed (c : CHttpRequest) :
    c_request_callback (some c) (some .throws) =
      { handlerInvoked := true, sent := [], freed := true } := rfl

/-- Witness for C6 at an all-default request. -/
theorem c6_sync_throw_swallowed_witness :
    c_request_callback (some {}) (some .throws) =
      { handlerInvoked := true, sent := [], freed := true } :=
  c6_sync_throw_swallowed {}

/-- C7: with no handler installed, the callback releases the
engine-owned record, invokes no handler and sends no response. -/
theorem c7_no_handler_abandons (c : CHttpRequest) :
    c_request_callback (some c) none =
      { handlerInvoked := false, sent := [], freed := true } := rfl

/-- Witness for C7 at an all-default request. -/
theorem c7_no_handler_abandons_witness :
    c_request_callback (some {}) none =
      { handlerInvoked := false, sent := [], freed := true } :=
  c7_no_handler_abandons {}

/-- C8: `readRequestBodyChunk` returns at most 64 KiB of data; it
returns empty bytes exactly when the engine reports a zero-length read,
and fails with the I/O error exactly when the engine reports a negative
read — the error is never swallowed.  The hypothesis records that the
code itself allocates the 64 KiB buffer the engine fills. -/
theorem c8_readChunk (bytesRead : Int) (buffer : List Nat)
    (hlen : buffer.length = BUFFER_CAP) :
    (∀ bs, readRequestBodyChunk bytesRead buffer = .ok bs → bs.length ≤ BUFFER_CAP) ∧
    (readRequestBodyChunk bytesRead buffer = .ok [] ↔ bytesRead = 0) ∧
    ((∃ e, readRequestBodyChunk bytesRead buffer = .error e) ↔ bytesRead < 0) := by
  rcases lt_trichotomy bytesRead 0 with h | h | h
  · rw [readRequestBodyChunk, if_pos h]
    refine ⟨fun bs hbs => by simp at hbs, ⟨fun hx => by simp at hx, fun hx => by omega⟩,
      ⟨fun _ => h, fun _ => ⟨.readFailed, rfl⟩⟩⟩
  · subst h
    rw [readRequestBodyChunk, if_neg (show ¬ (0 : Int) < 0 by omega), if_pos rfl]
    refine ⟨fun bs hbs => ?_, ⟨fun _ => rfl, fun _ => rfl⟩,
      ⟨?_, fun h0 => by omega⟩⟩
    · have : bs = [] := by simpa using hbs.symm
      simp [this]
    · rintro ⟨e, he⟩
      simp at he
  · rw [readRequestBodyChunk, if_neg (by omega), if_neg (by omega)]
    refine ⟨?_, ⟨?_, fun h0 => by omega⟩, ⟨?_, fun h0 => by omega⟩⟩
    · intro bs hbs
      have hb : buffer.take bytesRead.toNat = bs := by
        simpa using hbs
      rw [← hb]
      simp [List.length_take, hlen]
    · intro hx
      have hnil : buffer.take bytesRead.toNat = [] := by simpa using hx
      rw [List.take_eq_nil_iff] at hnil
      rcases hnil with h1 | h1
      · omega
      · rw [h1] at hlen
        simp [BUFFER_CAP] at hlen
    · rintro ⟨e, he⟩
      simp at he

/-- Witness for C8 at a zero-length read into the 64 KiB buffer. -/
theorem c8_readChunk_witness :
    ((List.replicate BUFFER_CAP 0).length = BUFFER_CAP) ∧
    readRequestBodyChunk 0 (List.replicate BUFFER_CAP 0) = .ok [] :=
  ⟨List.length_replicate _ _,
    ((c8_readChunk 0 (List.replicate BUFFER_CAP 0) (List.length_replicate _ _)).2.1).mpr rfl⟩

/-- C9 counterexample: for an empty buffer (and likewise a null one)
`wsSendBinary` does NOT call `ws_send_binary` and returns `false`
regardless of the engine's flag — here the engine would have returned
`true` — refuting the claim that every buffer is passed through and the
engine's flag returned. -/
theorem c9_counterexample :
    wsSendBinary (some []) true = (none, false) ∧
    wsSendBinary none true = (none, false) := ⟨rfl, rfl⟩

/-- C9 (amended): for every non-empty buffer the copied bytes are
passed to `ws_send_binary` and the engine's success flag is returned;
for a null or empty buffer the call returns `false` without invoking
the engine. -/
theorem c9_amended (data : Option (List Nat)) (flag : Bool) :
    (∀ bs, data = some bs → bs ≠ [] → wsSendBinary data flag = (some bs, flag)) ∧
    ((data = none ∨ data = some []) → wsSendBinary data flag = (none, false)) := by
  constructor
  · rintro bs rfl hne
    have hpos : 0 < bs.length := List.length_pos.mpr hne
    simp [wsSendBinary, hpos, hne]
  · rintro (rfl | rfl) <;> simp [wsSendBinary]

/-- Witness for C9 (amended) at a one-byte buffer. -/
theorem c9_amended_witness :
    (some [7] = some [7] ∧ ([7] : List Nat) ≠ []) ∧
    wsSendBinary (some [7]) true = (some [7], true) :=
  ⟨⟨rfl, by decide⟩, (c9_amended (some [7]) true).1 [7] rfl (by decide)⟩

/-- C10: two responses agreeing on statusCode, headers and textual body
— however their binary payloads differ — produce identical
`send_response` calls on both response-sending paths: `binaryBody` is
never read there. -/
theorem c10_binaryBody_never_read (rid : String) (r1 r2 : HttpResponse)
    (h1 : r1.statusCode = r2.statusCode) (h2 : r1.headers = r2.headers)
    (h3 : r1.body = r2.body) :
    extractAndSendResponse rid r1 = extractAndSendResponse rid r2 ∧
    sendResponseCall rid r1 = sendResponseCall rid r2 := by
  simp [extractAndSendResponse, sendResponseCall, h1, h2, h3]

/-- Witness for C10 at two responses differing only in `binaryBody`. -/
theorem c10_binaryBody_never_read_witness :
    (({ statusCode := 200, body := some "ok" } : HttpResponse).binaryBody ≠
     ({ statusCode := 200, body := some "ok", binaryBody := some [1, 2, 3] } : HttpResponse).binaryBody) ∧
    (extractAndSendResponse "id1" { statusCode := 200, body := some "ok" } =
      extractAndSendResponse "id1" { statusCode := 200, body := some "ok", binaryBody := some [1, 2, 3] } ∧
     sendResponseCall "id1" { statusCode := 200, body := some "ok" } =
      sendResponseCall "id1" { statusCode := 200, body := some "ok", binaryBody := some [1, 2, 3] }) :=
  ⟨by decide, c10_binaryBody_never_read "id1" _ _ rfl rfl rfl⟩

end RNHttp
